/-
Verification of `go/base/context.go` from the gh-ost repository.

Strings manipulated by the Go code are modelled as Lean `String`s; where the
code splits and scans strings character by character (`strings.Split`,
`strconv.ParseInt`) we work on the underlying `List Char` (`String.data`),
which is the faithful character-sequence view.  Go's `map[string]int64` is
modelled as an association list observed through `mapLookup` (Go maps are
unordered, so theorems about the "resulting mapping" are stated through
lookups).  Go `int64` values are modelled as `Int` with the explicit
`[-2^63, 2^63-1]` range check that `strconv.ParseInt(s, 10, 0)` performs.
Mutexes, `time.Time` fields and the `CanStopStreaming` callback are runtime
artifacts with no data content; they are omitted from the state record.
-/
import Mathlib

namespace GhOst

/-- A key of the `MaxLoad` map: a Go string, viewed as its characters. -/
abbrev Key := List Char

/-- Model of Go's `map[string]int64`: an association list, observed
extensionally through `mapLookup`. -/
abbrev MaxLoadMap := List (Key × Int)

/-- Lookup in the model of a Go map. -/
def mapLookup (k : Key) : MaxLoadMap → Option Int
  | [] => none
  | (k', v) :: rest => if k' = k then some v else mapLookup k rest

/-- Model of Go's `m[k] = v`: overwrite the binding in place if the key is
present, otherwise add it. -/
def mapInsert (m : MaxLoadMap) (k : Key) (v : Int) : MaxLoadMap :=
  match m with
  | [] => [(k, v)]
  | (k', v') :: rest => if k' = k then (k, v) :: rest else (k', v') :: mapInsert rest k v

/-- Go's `strings.Split(s, sep)` for a one-character separator (the only form
`context.go` uses: separators `","` and `"="`).  `strings.Split("", sep)`
returns `[""]`, hence the `[[]]` base case. -/
def goSplitChar (sep : Char) : List Char → List (List Char)
  | [] => [[]]
  | c :: rest =>
    match goSplitChar sep rest with
    | [] => [[c]]
    | g :: gs => if c = sep then [] :: g :: gs else (c :: g) :: gs

/-- Go's `strconv.ParseInt(s, 10, 0)`: an optional single `+`/`-` sign
followed by at least one decimal digit, with the result required to fit in a
64-bit signed integer (`bitSize 0` means `int`, 64-bit).  Returns `none`
exactly when Go returns a non-nil error. -/
def goParseInt (s : List Char) : Option Int :=
  let (neg, digits) :=
    match s with
    | '+' :: rest => (false, rest)
    | '-' :: rest => (true, rest)
    | _ => (false, s)
  if digits = [] then none
  else if digits.all (fun c => c.isDigit) then
    let n : Nat := digits.foldl (fun acc c => acc * 10 + (c.toNat - '0'.toNat)) 0
    if neg then
      if n ≤ 2 ^ 63 then some (-(n : Int)) else none
    else
      if n ≤ 2 ^ 63 - 1 then some (n : Int) else none
  else none

/-- The three errors `ReadMaxLoad` can produce, each naming the offending
condition, mirroring the three `fmt.Errorf` calls:
`"Error parsing max-load condition: %s"`,
`"Error parsing status variable in max-load condition: %s"`,
`"Error parsing numeric value in max-load condition: %s"`. -/
inductive MaxLoadError where
  | condition (cond : List Char)
  | statusVariable (cond : List Char)
  | numericValue (cond : List Char)
deriving DecidableEq

/-- The condition named by a `MaxLoadError` (the `%s` of the message). -/
def MaxLoadError.cond : MaxLoadError → List Char
  | .condition c => c
  | .statusVariable c => c
  | .numericValue c => c

/-- One iteration of the loop in `ReadMaxLoad`: split the condition on `=`,
check the token count, the variable name and the numeric value, and either
record an error or store the pair into the map. -/
def processMaxLoadCondition (m : MaxLoadMap) (cond : List Char) :
    Option MaxLoadError × MaxLoadMap :=
  if (goSplitChar '=' cond).length ≠ 2 then (some (.condition cond), m)
  else if (goSplitChar '=' cond).headD [] = [] then (some (.statusVariable cond), m)
  else
    match goParseInt ((goSplitChar '=' cond).getD 1 []) with
    | none => (some (.numericValue cond), m)
    | some n => (none, mapInsert m ((goSplitChar '=' cond).headD []) n)

/-- The loop of `ReadMaxLoad` over the comma-separated conditions: stops at
the first failing condition, returning the error together with the map as
mutated so far. -/
def readMaxLoadConditions (m : MaxLoadMap) :
    List (List Char) → Option MaxLoadError × MaxLoadMap
  | [] => (none, m)
  | cond :: rest =>
    match processMaxLoadCondition m cond with
    | (some e, m') => (some e, m')
    | (none, m') => readMaxLoadConditions m' rest

/-- `MigrationContext.ReadMaxLoad`, as a function of the prior `MaxLoad` map
and the `--max-load` string; returns the error (if any) and the new map. -/
def ReadMaxLoad (m : MaxLoadMap) (maxLoadList : String) :
    Option MaxLoadError × MaxLoadMap :=
  if maxLoadList = "" then (none, m)
  else readMaxLoadConditions m (goSplitChar ',' maxLoadList.data)

-- Specification-side views of a single condition, derived from the same
-- checks the loop body performs.

/-- The error a single max-load condition produces, if any. -/
def conditionError (cond : List Char) : Option MaxLoadError :=
  (processMaxLoadCondition [] cond).1

/-- The variable name of a (well-formed) max-load condition. -/
def conditionKey (cond : List Char) : Key :=
  (goSplitChar '=' cond).headD []

/-- The integer value of a (well-formed) max-load condition. -/
def conditionValue (cond : List Char) : Int :=
  (goParseInt ((goSplitChar '=' cond).getD 1 [])).getD 0

/-- The effect of a list of well-formed conditions on the map. -/
def applyConditions (m : MaxLoadMap) (conds : List (List Char)) : MaxLoadMap :=
  conds.foldl (fun m c => mapInsert m (conditionKey c) (conditionValue c)) m

/-- The value the LAST condition with key `k` assigns, if any (the binding
that survives in the map after all conditions are applied). -/
def lastValue (k : Key) : List (List Char) → Option Int
  | [] => none
  | c :: rest =>
    match lastValue k rest with
    | some v => some v
    | none => if conditionKey c = k then some (conditionValue c) else none

/-- The value the FIRST condition with key `k` assigns, if any. -/
def firstValue (k : Key) : List (List Char) → Option Int
  | [] => none
  | c :: rest =>
    if conditionKey c = k then some (conditionValue c) else firstValue k rest

/-- `RowsEstimateMethod` is a string type in the Go code. -/
abbrev RowsEstimateMethod := String

def TableStatusRowsEstimate : RowsEstimateMethod := "TableStatusRowsEstimate"

def ExplainRowsEstimate : RowsEstimateMethod := "ExplainRowsEstimate"

def CountRowsEstimate : RowsEstimateMethod := "CountRowsEstimate"

/-- `CutOver` is an integer type in the Go code; the constants below follow
the `iota`-style numbering starting at 1. -/
abbrev CutOver := Int

def CutOverTwoStep : CutOver := 1

def CutOverVoluntaryLock : CutOver := 2

def CutOverUdfWait : CutOver := 3

def maxRetries : Int := 10

/-- Modelled from the spec: `go/mysql`'s `ConnectionConfig` is not under
`src/`; the spec describes each connection identity as "a host/port/credential
tuple". -/
structure ConnectionConfig where
  Hostname : String
  Port : Int
  User : String
  Password : String
deriving DecidableEq

/-- Modelled from the spec: `mysql.NewConnectionConfig` is not under `src/`;
a freshly constructed connection configuration holds Go zero values. -/
def NewConnectionConfig : ConnectionConfig :=
  { Hostname := "", Port := 0, User := "", Password := "" }

/-- Modelled from the spec: `ConnectionConfig.Equals` is not under `src/`;
the spec makes "equality between them" of the host/port/credential tuples the
first-class condition, so `Equals` compares the tuples. -/
def ConnectionConfig.Equals (c other : ConnectionConfig) : Bool :=
  c = other

/-- Modelled from the spec: `go/sql`'s `ColumnValues` is not under `src/`;
the spec treats the range fields only as optionally-present tuples of
migration-key values, so the payload is an abstract list of values. -/
structure ColumnValues where
  abstractValues : List Int
deriving DecidableEq

/-- Modelled from the spec: `go/sql`'s `ColumnList` is not under `src/`; the
spec treats it as an ordered list of column names. -/
structure ColumnList where
  columnNames : List String
deriving DecidableEq

/-- Modelled from the spec: `go/sql`'s `UniqueKey` is not under `src/`; the
spec treats it as a named candidate key over some columns. -/
structure UniqueKey where
  keyName : String
  keyColumns : List String
deriving DecidableEq

/-- Modelled from the spec: `go/mysql`'s `InstanceKeyMap` is not under
`src/`; a set of host/port instance keys used for throttle-control replicas. -/
structure InstanceKeyMap where
  instances : List (String × Int)
deriving DecidableEq

/-- Modelled from the spec: `mysql.NewInstanceKeyMap` is not under `src/`;
a freshly constructed map is empty. -/
def NewInstanceKeyMap : InstanceKeyMap := { instances := [] }

structure ContextConfigClient where
  User : String
  Password : String
deriving DecidableEq

structure ContextConfigOsc where
  Chunk_Size : Int
  Max_Lag_Millis : Int
  Replication_Lag_Query : String
  Max_Load : String
deriving DecidableEq

/-- `ContextConfig`: the config-file sections. -/
structure ContextConfig where
  Client : ContextConfigClient
  Osc : ContextConfigOsc
deriving DecidableEq

/-- `MigrationContext`: the general, global state of migration.  Mutex
fields, the `time.Time` fields and the `CanStopStreaming` callback of the Go
struct carry no embeddable data and are omitted; every data field is kept. -/
structure MigrationContext where
  DatabaseName : String
  OriginalTableName : String
  AlterStatement : String
  CountTableRows : Bool
  AllowedRunningOnMaster : Bool
  SwitchToRowBinlogFormat : Bool
  NullableUniqueKeyAllowed : Bool
  config : ContextConfig
  ConfigFile : String
  CliUser : String
  CliPassword : String
  ChunkSize : Int
  MaxLagMillisecondsThrottleThreshold : Int
  ReplictionLagQuery : String
  ThrottleControlReplicaKeys : InstanceKeyMap
  ThrottleFlagFile : String
  ThrottleAdditionalFlagFile : String
  MaxLoad : MaxLoadMap
  PostponeSwapTablesFlagFile : String
  SwapTablesTimeoutSeconds : Int
  Noop : Bool
  TestOnReplica : Bool
  OkToDropTable : Bool
  InitiallyDropOldTable : Bool
  InitiallyDropGhostTable : Bool
  CutOverType : CutOver
  TableEngine : String
  RowsEstimate : Int
  UsedRowsEstimateMethod : RowsEstimateMethod
  OriginalBinlogFormat : String
  OriginalBinlogRowImage : String
  InspectorConnectionConfig : ConnectionConfig
  ApplierConnectionConfig : ConnectionConfig
  CurrentLag : Int
  TotalRowsCopied : Int
  TotalDMLEventsApplied : Int
  isThrottled : Bool
  throttleReason : String
  OriginalTableColumns : Option ColumnList
  OriginalTableUniqueKeys : List UniqueKey
  GhostTableColumns : Option ColumnList
  GhostTableUniqueKeys : List UniqueKey
  UniqueKey : Option UniqueKey
  SharedColumns : Option ColumnList
  MigrationRangeMinValues : Option ColumnValues
  MigrationRangeMaxValues : Option ColumnValues
  Iteration : Int
  MigrationIterationRangeMinValues : Option ColumnValues
  MigrationIterationRangeMaxValues : Option ColumnValues
deriving DecidableEq

/-- `newMigrationContext`: the explicitly initialized fields of the Go struct
literal, with Go zero values (empty string, `false`, `0`, `nil`/empty) for
every other field. -/
def newMigrationContext : MigrationContext where
  DatabaseName := ""
  OriginalTableName := ""
  AlterStatement := ""
  CountTableRows := false
  AllowedRunningOnMaster := false
  SwitchToRowBinlogFormat := false
  NullableUniqueKeyAllowed := false
  config :=
    { Client := { User := "", Password := "" }
      Osc := { Chunk_Size := 0, Max_Lag_Millis := 0
               Replication_Lag_Query := "", Max_Load := "" } }
  ConfigFile := ""
  CliUser := ""
  CliPassword := ""
  ChunkSize := 1000
  MaxLagMillisecondsThrottleThreshold := 1000
  ReplictionLagQuery := ""
  ThrottleControlReplicaKeys := NewInstanceKeyMap
  ThrottleFlagFile := ""
  ThrottleAdditionalFlagFile := ""
  MaxLoad := []
  PostponeSwapTablesFlagFile := ""
  SwapTablesTimeoutSeconds := 3
  Noop := false
  TestOnReplica := false
  OkToDropTable := false
  InitiallyDropOldTable := false
  InitiallyDropGhostTable := false
  CutOverType := 0
  TableEngine := ""
  RowsEstimate := 0
  UsedRowsEstimateMethod := ""
  OriginalBinlogFormat := ""
  OriginalBinlogRowImage := ""
  InspectorConnectionConfig := NewConnectionConfig
  ApplierConnectionConfig := NewConnectionConfig
  CurrentLag := 0
  TotalRowsCopied := 0
  TotalDMLEventsApplied := 0
  isThrottled := false
  throttleReason := ""
  OriginalTableColumns := none
  OriginalTableUniqueKeys := []
  GhostTableColumns := none
  GhostTableUniqueKeys := []
  UniqueKey := none
  SharedColumns := none
  MigrationRangeMinValues := none
  MigrationRangeMaxValues := none
  Iteration := 0
  MigrationIterationRangeMinValues := none
  MigrationIterationRangeMaxValues := none

/-- `GetGhostTableName`: `fmt.Sprintf("_%s_gst", this.OriginalTableName)`. -/
def GetGhostTableName (this : MigrationContext) : String :=
  "_" ++ this.OriginalTableName ++ "_gst"

/-- `GetOldTableName`: `fmt.Sprintf("_%s_old", this.OriginalTableName)`. -/
def GetOldTableName (this : MigrationContext) : String :=
  "_" ++ this.OriginalTableName ++ "_old"

/-- `GetChangelogTableName`: `fmt.Sprintf("_%s_osc", this.OriginalTableName)`. -/
def GetChangelogTableName (this : MigrationContext) : String :=
  "_" ++ this.OriginalTableName ++ "_osc"

/-- `GetVoluntaryLockName`:
`fmt.Sprintf("%s.%s.lock", this.DatabaseName, this.OriginalTableName)`. -/
def GetVoluntaryLockName (this : MigrationContext) : String :=
  this.DatabaseName ++ "." ++ this.OriginalTableName ++ ".lock"

/-- `RequiresBinlogFormatChange`: `this.OriginalBinlogFormat != "ROW"`. -/
def RequiresBinlogFormatChange (this : MigrationContext) : Bool :=
  this.OriginalBinlogFormat ≠ "ROW"

/-- `InspectorIsAlsoApplier`:
`this.InspectorConnectionConfig.Equals(this.ApplierConnectionConfig)`. -/
def InspectorIsAlsoApplier (this : MigrationContext) : Bool :=
  this.InspectorConnectionConfig.Equals this.ApplierConnectionConfig

/-- `HasMigrationRange`:
`this.MigrationRangeMinValues != nil && this.MigrationRangeMaxValues != nil`. -/
def HasMigrationRange (this : MigrationContext) : Bool :=
  this.MigrationRangeMinValues ≠ none ∧ this.MigrationRangeMaxValues ≠ none

/-- The inspector connection configuration after `ApplyCredentials`: the
four sequential `if`s of the Go method applied to the inspector
connection's user and password. -/
def appliedInspectorConfig (this : MigrationContext) : ConnectionConfig :=
  let icc := this.InspectorConnectionConfig
  let icc := if this.config.Client.User ≠ "" then
    { icc with User := this.config.Client.User } else icc
  let icc := if this.CliUser ≠ "" then
    { icc with User := this.CliUser } else icc
  let icc := if this.config.Client.Password ≠ "" then
    { icc with Password := this.config.Client.Password } else icc
  let icc := if this.CliPassword ≠ "" then
    { icc with Password := this.CliPassword } else icc
  icc

/-- `ApplyCredentials`: sorts out the credentials between the config file
and the CLI flags.  The Go method mutates the inspector connection's user
and password in place through the `*ConnectionConfig` pointer; this is
modelled as replacing that field with the updated configuration. -/
def ApplyCredentials (this : MigrationContext) : MigrationContext :=
  { this with InspectorConnectionConfig := appliedInspectorConfig this }

/-- A context with both command-line and config-file credentials set, used to
exercise credential precedence at a concrete input. -/
def cliCredentialsContext : MigrationContext :=
  { newMigrationContext with
      CliUser := "cliuser"
      CliPassword := "clipass"
      config :=
        { Client := { User := "fileuser", Password := "filepass" }
          Osc := newMigrationContext.config.Osc } }

/-- A context with only config-file credentials set. -/
def fileCredentialsContext : MigrationContext :=
  { newMigrationContext with
      config :=
        { Client := { User := "fileuser", Password := "filepass" }
          Osc := newMigrationContext.config.Osc } }

/-! ### Sanity checks of the parser embedding -/

example : ReadMaxLoad [] "a=1" = (none, [(['a'], 1)]) := by decide
example : ReadMaxLoad [] "a=1,b" = (some (.condition ['b']), [(['a'], 1)]) := by decide
example : ReadMaxLoad [] "=1" = (some (.statusVariable ['=', '1']), []) := by decide
example : ReadMaxLoad [] "a=x" = (some (.numericValue ['a', '=', 'x']), []) := by decide
example : ReadMaxLoad [(['z'], 3)] "" = (none, [(['z'], 3)]) := by decide
example : ReadMaxLoad [] "a=-7" = (none, [(['a'], -7)]) := by decide

/-! ### Lemmas about a single max-load condition -/

/-- The error produced by the loop body does not depend on the map. -/
theorem processMaxLoadCondition_fst (m : MaxLoadMap) (cond : List Char) :
    (processMaxLoadCondition m cond).1 = conditionError cond := by
  unfold conditionError processMaxLoadCondition
  by_cases h1 : (goSplitChar '=' cond).length ≠ 2
  · rw [if_pos h1, if_pos h1]
  · rw [if_neg h1, if_neg h1]
    by_cases h2 : (goSplitChar '=' cond).headD [] = []
    · rw [if_pos h2, if_pos h2]
    · rw [if_neg h2, if_neg h2]
      cases goParseInt ((goSplitChar '=' cond).getD 1 []) <;> rfl

/-- On a well-formed condition, the loop body stores the condition's pair. -/
theorem processMaxLoadCondition_of_ok (m : MaxLoadMap) (cond : List Char)
    (h : conditionError cond = none) :
    processMaxLoadCondition m cond
      = (none, mapInsert m (conditionKey cond) (conditionValue cond)) := by
  unfold conditionError processMaxLoadCondition at h
  unfold processMaxLoadCondition
  by_cases h1 : (goSplitChar '=' cond).length ≠ 2
  · rw [if_pos h1] at h; simp at h
  · rw [if_neg h1] at h ⊢
    by_cases h2 : (goSplitChar '=' cond).headD [] = []
    · rw [if_pos h2] at h; simp at h
    · rw [if_neg h2] at h ⊢
      cases h3 : goParseInt ((goSplitChar '=' cond).getD 1 []) with
      | none => rw [h3] at h; simp at h
      | some n =>
        unfold conditionKey conditionValue
        rw [h3]
        rfl

/-- On a malformed condition, the loop body reports the error and leaves the
map untouched. -/
theorem processMaxLoadCondition_of_error (m : MaxLoadMap) (cond : List Char)
    (e : MaxLoadError) (h : conditionError cond = some e) :
    processMaxLoadCondition m cond = (some e, m) := by
  unfold conditionError processMaxLoadCondition at h
  unfold processMaxLoadCondition
  by_cases h1 : (goSplitChar '=' cond).length ≠ 2
  · rw [if_pos h1] at h ⊢
    simp at h
    rw [h]
  · rw [if_neg h1] at h ⊢
    by_cases h2 : (goSplitChar '=' cond).headD [] = []
    · rw [if_pos h2] at h ⊢
      simp at h
      rw [h]
    · rw [if_neg h2] at h ⊢
      cases h3 : goParseInt ((goSplitChar '=' cond).getD 1 []) with
      | none =>
        rw [h3] at h
        simp at h
        rw [h]
      | some n => rw [h3] at h; simp at h

/-- A condition's error names that very condition. -/
theorem conditionError_cond (cond : List Char) (e : MaxLoadError)
    (h : conditionError cond = some e) : e.cond = cond := by
  unfold conditionError processMaxLoadCondition at h
  by_cases h1 : (goSplitChar '=' cond).length ≠ 2
  · rw [if_pos h1] at h
    simp at h
    rw [← h]
    rfl
  · rw [if_neg h1] at h
    by_cases h2 : (goSplitChar '=' cond).headD [] = []
    · rw [if_pos h2] at h
      simp at h
      rw [← h]
      rfl
    · rw [if_neg h2] at h
      cases h3 : goParseInt ((goSplitChar '=' cond).getD 1 []) with
      | none =>
        rw [h3] at h
        simp at h
        rw [← h]
        rfl
      | some n => rw [h3] at h; simp at h

/-! ### Lemmas about the condition loop -/

/-- A run over well-formed conditions succeeds and folds the pairs into the
map. -/
theorem readMaxLoadConditions_of_ok (conds : List (List Char)) (m : MaxLoadMap)
    (h : ∀ c ∈ conds, conditionError c = none) :
    readMaxLoadConditions m conds = (none, applyConditions m conds) := by
  induction conds generalizing m with
  | nil => rfl
  | cons c rest ih =>
    have hc : conditionError c = none := h c (List.mem_cons_self c rest)
    simp only [readMaxLoadConditions, processMaxLoadCondition_of_ok m c hc]
    rw [ih _ (fun c' hc' => h c' (List.mem_cons_of_mem _ hc'))]
    rfl

/-- A run stops at the first malformed condition, reporting its error, with
the map holding exactly the pairs of the conditions before it. -/
theorem readMaxLoadConditions_of_error (pre : List (List Char)) (bad : List Char)
    (rest : List (List Char)) (e : MaxLoadError) (m : MaxLoadMap)
    (hpre : ∀ c ∈ pre, conditionError c = none)
    (hbad : conditionError bad = some e) :
    readMaxLoadConditions m (pre ++ bad :: rest) = (some e, applyConditions m pre) := by
  induction pre generalizing m with
  | nil =>
    rw [List.nil_append]
    simp only [readMaxLoadConditions, processMaxLoadCondition_of_error m bad e hbad]
    rfl
  | cons c pre' ih =>
    have hc : conditionError c = none := hpre c (List.mem_cons_self c pre')
    rw [List.cons_append]
    simp only [readMaxLoadConditions, processMaxLoadCondition_of_ok m c hc]
    rw [ih _ (fun c' hc' => hpre c' (List.mem_cons_of_mem _ hc'))]
    rfl

/-! ### Lemmas about the map -/

theorem mapLookup_mapInsert (m : MaxLoadMap) (k k' : Key) (v : Int) :
    mapLookup k (mapInsert m k' v) = if k' = k then some v else mapLookup k m := by
  induction m with
  | nil => rfl
  | cons p rest ih =>
    obtain ⟨k'', v''⟩ := p
    by_cases h : k'' = k'
    · subst h
      simp only [mapInsert, if_pos rfl, mapLookup]
      by_cases h2 : k'' = k <;> simp [h2]
    · simp only [mapInsert, if_neg h, mapLookup, ih]
      by_cases h2 : k'' = k
      · subst h2
        rw [if_pos rfl, if_neg (fun hk => h hk.symm), if_pos rfl]
      · rw [if_neg h2, if_neg h2]

/-- Unfolding equation for `lastValue` on a `cons`. -/
theorem lastValue_cons (k : Key) (c : List Char) (rest : List (List Char)) :
    lastValue k (c :: rest)
      = (lastValue k rest).or
          (if conditionKey c = k then some (conditionValue c) else none) := by
  cases h : lastValue k rest with
  | some v => simp only [lastValue]; rw [h]; rfl
  | none => simp only [lastValue]; rw [h]; rfl

/-- Extensional description of `applyConditions`: the surviving binding for
`k` is the one from the last condition with key `k`, and absent such a
condition the prior binding. -/
theorem mapLookup_applyConditions (conds : List (List Char)) (m : MaxLoadMap) (k : Key) :
    mapLookup k (applyConditions m conds) = (lastValue k conds).or (mapLookup k m) := by
  induction conds generalizing m with
  | nil => rfl
  | cons c rest ih =>
    show mapLookup k (applyConditions (mapInsert m (conditionKey c) (conditionValue c)) rest) = _
    rw [ih, lastValue_cons]
    cases h' : lastValue k rest with
    | some v => rfl
    | none =>
      rw [mapLookup_mapInsert]
      by_cases h : conditionKey c = k
      · rw [if_pos h, if_pos h]
        rfl
      · rw [if_neg h, if_neg h]
        rfl

/-- If some condition assigns a last value to `k`, then `k` is among the
condition keys. -/
theorem lastValue_mem (conds : List (List Char)) (k : Key)
    (h : (lastValue k conds).isSome) : k ∈ conds.map conditionKey := by
  induction conds with
  | nil => simp [lastValue] at h
  | cons c rest ih =>
    rw [lastValue_cons] at h
    cases h' : lastValue k rest with
    | some v =>
      exact List.mem_cons_of_mem _ (ih (by rw [h']; rfl))
    | none =>
      rw [h'] at h
      by_cases hk : conditionKey c = k
      · simp [hk]
      · rw [if_neg hk] at h
        simp at h

/-- With pairwise-distinct keys, the last and first assignments coincide. -/
theorem lastValue_eq_firstValue (conds : List (List Char)) (k : Key)
    (h : (conds.map conditionKey).Nodup) : lastValue k conds = firstValue k conds := by
  induction conds with
  | nil => rfl
  | cons c rest ih =>
    simp only [List.map_cons, List.nodup_cons] at h
    obtain ⟨hnotmem, hrest⟩ := h
    rw [lastValue_cons]
    simp only [firstValue]
    cases h' : lastValue k rest with
    | some v =>
      have hkmem : k ∈ rest.map conditionKey := lastValue_mem rest k (by rw [h']; rfl)
      have hne : conditionKey c ≠ k := fun he => hnotmem (he ▸ hkmem)
      rw [if_neg hne, if_neg hne, ← ih hrest, h']
      rfl
    | none =>
      by_cases hk : conditionKey c = k
      · rw [if_pos hk, if_pos hk]
        rfl
      · rw [if_neg hk, if_neg hk, ← ih hrest, h']
        rfl

/-- With pairwise-distinct keys, any permutation of the conditions assigns
the same first value to every key. -/
theorem firstValue_perm (conds1 conds2 : List (List Char)) (k : Key)
    (hperm : conds1.Perm conds2) (hnd : (conds1.map conditionKey).Nodup) :
    firstValue k conds1 = firstValue k conds2 := by
  induction hperm with
  | nil => rfl
  | cons c h ih =>
    simp only [List.map_cons, List.nodup_cons] at hnd
    simp only [firstValue]
    by_cases hk : conditionKey c = k
    · simp [hk]
    · simp only [if_neg hk]
      exact ih hnd.2
  | swap x y l =>
    simp only [List.map_cons, List.nodup_cons, List.mem_cons] at hnd
    have hxy : conditionKey y ≠ conditionKey x := fun he => hnd.1 (Or.inl he)
    simp only [firstValue]
    by_cases hx : conditionKey x = k
    · by_cases hy : conditionKey y = k
      · exact absurd (hy.trans hx.symm) hxy
      · simp [hx, hy]
    · by_cases hy : conditionKey y = k
      · simp [hx, hy]
      · simp [hx, hy]
  | trans h1 h2 ih1 ih2 =>
    rw [ih1 hnd]
    exact ih2 (((h1.map conditionKey).nodup_iff).mp hnd)

/-! ### Claim theorems -/

/-- C2: for every valid max-load string (empty, or comma-separated
`variable=integer` pairs with non-empty variable names), `ReadMaxLoad`
returns no error and folds the pairs into the mapping; in particular
`"Threads_running=100,Threads_connected=500"` from an empty map yields
exactly `{Threads_running: 100, Threads_connected: 500}`, and the empty
string leaves the map as-is with no error. -/
theorem ReadMaxLoad_valid_ok :
    (∀ m : MaxLoadMap, ReadMaxLoad m "" = (none, m))
    ∧ (∀ (m : MaxLoadMap) (s : String),
        (∀ c ∈ goSplitChar ',' s.data, conditionError c = none) →
        ReadMaxLoad m s = (none, applyConditions m (goSplitChar ',' s.data)))
    ∧ ReadMaxLoad [] "Threads_running=100,Threads_connected=500"
        = (none, [("Threads_running".data, 100), ("Threads_connected".data, 500)]) := by
  refine ⟨fun m => rfl, fun m s h => ?_, by decide⟩
  have hne : s ≠ "" := by
    intro he
    subst he
    exact absurd (h [] (by decide)) (by decide)
  unfold ReadMaxLoad
  rw [if_neg hne]
  exact readMaxLoadConditions_of_ok _ m h

/-- Witness for C2 at the concrete valid string `"x=9"`. -/
theorem ReadMaxLoad_valid_ok_witness :
    ReadMaxLoad [] "x=9" = (none, applyConditions [] (goSplitChar ',' "x=9".data)) :=
  ReadMaxLoad_valid_ok.2.1 [] "x=9" (by decide)

/-- C1 counterexample: on the malformed string `"a=1,b"` and an initially
empty map, `ReadMaxLoad` returns an error naming `"b"` but does NOT leave
the map unchanged: the valid pair `a=1` preceding the offender has already
been stored. -/
theorem ReadMaxLoad_error_state_counterexample :
    (ReadMaxLoad [] "a=1,b").1 = some (.condition ['b'])
    ∧ (ReadMaxLoad [] "a=1,b").2 = [(['a'], 1)]
    ∧ (ReadMaxLoad [] "a=1,b").2 ≠ ([] : MaxLoadMap) := by decide

/-- C1 amended: for every malformed max-load string, `ReadMaxLoad` returns
an error identifying the FIRST offending condition, and leaves the mapping
equal to the prior mapping updated with the valid pairs preceding that
condition (unchanged exactly when no valid pair precedes it). -/
theorem ReadMaxLoad_error_partial (m : MaxLoadMap) (s : String)
    (pre rest : List (List Char)) (bad : List Char) (e : MaxLoadError)
    (hs : goSplitChar ',' s.data = pre ++ bad :: rest)
    (hpre : ∀ c ∈ pre, conditionError c = none)
    (hbad : conditionError bad = some e)
    (hne : s ≠ "") :
    ReadMaxLoad m s = (some e, applyConditions m pre) ∧ e.cond = bad := by
  refine ⟨?_, conditionError_cond bad e hbad⟩
  unfold ReadMaxLoad
  rw [if_neg hne, hs]
  exact readMaxLoadConditions_of_error pre bad rest e m hpre hbad

/-- Witness for C1's amended theorem at the concrete input `"a=1,b"` over a
non-empty prior map. -/
theorem ReadMaxLoad_error_partial_witness :
    (ReadMaxLoad [(['z'], 9)] "a=1,b"
      = (some (.condition ['b']), applyConditions [(['z'], 9)] [['a', '=', '1']]))
    ∧ (MaxLoadError.condition ['b']).cond = ['b'] :=
  ReadMaxLoad_error_partial [(['z'], 9)] "a=1,b" [['a', '=', '1']] [] ['b']
    (.condition ['b']) (by decide) (by decide) (by decide) (by decide)

/-- C3 counterexample: the two valid strings `"a=1,a=2"` and `"a=2,a=1"`
have condition lists that are permutations of one another, yet parsing them
from the empty map yields different mappings (`a ↦ 2` versus `a ↦ 1`):
order independence fails when a variable repeats. -/
theorem ReadMaxLoad_orderIndependence_counterexample :
    goSplitChar ',' (String.data "a=1,a=2") = [['a', '=', '1'], ['a', '=', '2']]
    ∧ goSplitChar ',' (String.data "a=2,a=1") = [['a', '=', '2'], ['a', '=', '1']]
    ∧ (ReadMaxLoad [] "a=1,a=2").1 = none
    ∧ (ReadMaxLoad [] "a=2,a=1").1 = none
    ∧ mapLookup ['a'] (ReadMaxLoad [] "a=1,a=2").2 = some 2
    ∧ mapLookup ['a'] (ReadMaxLoad [] "a=2,a=1").2 = some 1 := by decide

/-- C3 amended: for every valid max-load string, parsing is idempotent
(parsing the same string a second time leaves the resulting mapping
unchanged), and parsing any permutation of the comma-separated conditions
yields the same resulting mapping PROVIDED the variable names of the
conditions are pairwise distinct. -/
theorem ReadMaxLoad_idempotent_orderIndependent :
    (∀ (m : MaxLoadMap) (s : String),
        (s = "" ∨ ∀ c ∈ goSplitChar ',' s.data, conditionError c = none) →
        ∀ k, mapLookup k (ReadMaxLoad (ReadMaxLoad m s).2 s).2
              = mapLookup k (ReadMaxLoad m s).2)
    ∧ (∀ (m : MaxLoadMap) (s1 s2 : String),
        (∀ c ∈ goSplitChar ',' s1.data, conditionError c = none) →
        (∀ c ∈ goSplitChar ',' s2.data, conditionError c = none) →
        (goSplitChar ',' s1.data).Perm (goSplitChar ',' s2.data) →
        ((goSplitChar ',' s1.data).map conditionKey).Nodup →
        ∀ k, mapLookup k (ReadMaxLoad m s1).2 = mapLookup k (ReadMaxLoad m s2).2) := by
  constructor
  · intro m s h k
    rcases h with he | hvalid
    · subst he
      rfl
    · have hne : s ≠ "" := by
        intro he
        subst he
        exact absurd (hvalid [] (by decide)) (by decide)
      have h1 : ReadMaxLoad m s = (none, applyConditions m (goSplitChar ',' s.data)) := by
        unfold ReadMaxLoad
        rw [if_neg hne]
        exact readMaxLoadConditions_of_ok _ m hvalid
      have h1p : (ReadMaxLoad m s).2 = applyConditions m (goSplitChar ',' s.data) := by
        rw [h1]
      have h2 : ReadMaxLoad (applyConditions m (goSplitChar ',' s.data)) s
          = (none, applyConditions (applyConditions m (goSplitChar ',' s.data))
              (goSplitChar ',' s.data)) := by
        unfold ReadMaxLoad
        rw [if_neg hne]
        exact readMaxLoadConditions_of_ok _ _ hvalid
      have h2p : (ReadMaxLoad (applyConditions m (goSplitChar ',' s.data)) s).2
          = applyConditions (applyConditions m (goSplitChar ',' s.data))
              (goSplitChar ',' s.data) := by
        rw [h2]
      rw [h1p, h2p, mapLookup_applyConditions, mapLookup_applyConditions]
      cases lastValue k (goSplitChar ',' s.data) <;> rfl
  · intro m s1 s2 hv1 hv2 hperm hnd k
    have hne1 : s1 ≠ "" := by
      intro he
      subst he
      exact absurd (hv1 [] (by decide)) (by decide)
    have hne2 : s2 ≠ "" := by
      intro he
      subst he
      exact absurd (hv2 [] (by decide)) (by decide)
    have e1 : ReadMaxLoad m s1 = (none, applyConditions m (goSplitChar ',' s1.data)) := by
      unfold ReadMaxLoad
      rw [if_neg hne1]
      exact readMaxLoadConditions_of_ok _ m hv1
    have e2 : ReadMaxLoad m s2 = (none, applyConditions m (goSplitChar ',' s2.data)) := by
      unfold ReadMaxLoad
      rw [if_neg hne2]
      exact readMaxLoadConditions_of_ok _ m hv2
    have e1p : (ReadMaxLoad m s1).2 = applyConditions m (goSplitChar ',' s1.data) := by
      rw [e1]
    have e2p : (ReadMaxLoad m s2).2 = applyConditions m (goSplitChar ',' s2.data) := by
      rw [e2]
    rw [e1p, e2p, mapLookup_applyConditions, mapLookup_applyConditions]
    have hnd2 : ((goSplitChar ',' s2.data).map conditionKey).Nodup :=
      ((hperm.map conditionKey).nodup_iff).mp hnd
    rw [lastValue_eq_firstValue _ _ hnd, lastValue_eq_firstValue _ _ hnd2,
      firstValue_perm _ _ k hperm hnd]

/-- Witness for C3's amended theorem: idempotence at `"a=3"` and order
independence at the distinct-key permutation pair `"a=3,b=4"` / `"b=4,a=3"`. -/
theorem ReadMaxLoad_idempotent_orderIndependent_witness :
    (mapLookup ['a'] (ReadMaxLoad (ReadMaxLoad [] "a=3").2 "a=3").2
      = mapLookup ['a'] (ReadMaxLoad [] "a=3").2)
    ∧ (mapLookup ['a'] (ReadMaxLoad [] "a=3,b=4").2
      = mapLookup ['a'] (ReadMaxLoad [] "b=4,a=3").2) :=
  ⟨ReadMaxLoad_idempotent_orderIndependent.1 [] "a=3" (Or.inr (by decide)) ['a'],
   ReadMaxLoad_idempotent_orderIndependent.2 [] "a=3,b=4" "b=4,a=3"
     (by decide) (by decide) (by decide) (by decide) ['a']⟩

/-- C4: the ghost, old and changelog table names are deterministic
fixed-suffix functions of the original table name alone, and the voluntary
lock name is a deterministic function of exactly the database name and the
original table name; equal inputs give byte-for-byte equal names. -/
theorem derivedNames_deterministic (c c2 : MigrationContext) :
    GetGhostTableName c = "_" ++ c.OriginalTableName ++ "_gst"
    ∧ GetOldTableName c = "_" ++ c.OriginalTableName ++ "_old"
    ∧ GetChangelogTableName c = "_" ++ c.OriginalTableName ++ "_osc"
    ∧ GetVoluntaryLockName c = c.DatabaseName ++ "." ++ c.OriginalTableName ++ ".lock"
    ∧ (c.OriginalTableName = c2.OriginalTableName →
        GetGhostTableName c = GetGhostTableName c2
        ∧ GetOldTableName c = GetOldTableName c2
        ∧ GetChangelogTableName c = GetChangelogTableName c2)
    ∧ (c.DatabaseName = c2.DatabaseName → c.OriginalTableName = c2.OriginalTableName →
        GetVoluntaryLockName c = GetVoluntaryLockName c2) := by
  refine ⟨rfl, rfl, rfl, rfl, fun h => ?_, fun hd ht => ?_⟩
  · unfold GetGhostTableName GetOldTableName GetChangelogTableName
    rw [h]
    exact ⟨rfl, rfl, rfl⟩
  · unfold GetVoluntaryLockName
    rw [hd, ht]

/-- Witness for C4 at two concrete contexts that agree on the naming
inputs. -/
theorem derivedNames_deterministic_witness :
    GetGhostTableName newMigrationContext
      = "_" ++ newMigrationContext.OriginalTableName ++ "_gst"
    ∧ GetVoluntaryLockName newMigrationContext
      = GetVoluntaryLockName cliCredentialsContext :=
  ⟨(derivedNames_deterministic newMigrationContext newMigrationContext).1,
   (derivedNames_deterministic newMigrationContext cliCredentialsContext).2.2.2.2.2
     rfl rfl⟩

/-- C5: after `ApplyCredentials`, command-line credentials always win over
config-file credentials for the inspector connection; when only the
config-file value is set, the config-file value is used. -/
theorem ApplyCredentials_precedence (c : MigrationContext) :
    (c.CliUser ≠ "" →
      (ApplyCredentials c).InspectorConnectionConfig.User = c.CliUser)
    ∧ (c.CliUser = "" → c.config.Client.User ≠ "" →
      (ApplyCredentials c).InspectorConnectionConfig.User = c.config.Client.User)
    ∧ (c.CliPassword ≠ "" →
      (ApplyCredentials c).InspectorConnectionConfig.Password = c.CliPassword)
    ∧ (c.CliPassword = "" → c.config.Client.Password ≠ "" →
      (ApplyCredentials c).InspectorConnectionConfig.Password = c.config.Client.Password) := by
  have hins : (ApplyCredentials c).InspectorConnectionConfig = appliedInspectorConfig c := rfl
  refine ⟨fun h1 => ?_, fun h1 h2 => ?_, fun h1 => ?_, fun h1 h2 => ?_⟩ <;> rw [hins]
  · simp [appliedInspectorConfig, apply_ite ConnectionConfig.User, h1]
  · simp [appliedInspectorConfig, apply_ite ConnectionConfig.User, h1, h2]
  · simp [appliedInspectorConfig, apply_ite ConnectionConfig.Password, h1]
  · simp [appliedInspectorConfig, apply_ite ConnectionConfig.Password, h1, h2]

/-- Witness for C5: with both CLI and file credentials set the CLI value
wins; with only file credentials set the file value is used. -/
theorem ApplyCredentials_precedence_witness :
    ((ApplyCredentials cliCredentialsContext).InspectorConnectionConfig.User
      = cliCredentialsContext.CliUser)
    ∧ ((ApplyCredentials fileCredentialsContext).InspectorConnectionConfig.User
      = fileCredentialsContext.config.Client.User)
    ∧ ((ApplyCredentials cliCredentialsContext).InspectorConnectionConfig.Password
      = cliCredentialsContext.CliPassword)
    ∧ ((ApplyCredentials fileCredentialsContext).InspectorConnectionConfig.Password
      = fileCredentialsContext.config.Client.Password) :=
  ⟨(ApplyCredentials_precedence cliCredentialsContext).1 (by decide),
   (ApplyCredentials_precedence fileCredentialsContext).2.1 (by decide) (by decide),
   (ApplyCredentials_precedence cliCredentialsContext).2.2.1 (by decide),
   (ApplyCredentials_precedence fileCredentialsContext).2.2.2 (by decide) (by decide)⟩

/-- C6: `InspectorIsAlsoApplier` is true exactly when the inspector and
applier connection configurations are equal. -/
theorem InspectorIsAlsoApplier_iff (c : MigrationContext) :
    InspectorIsAlsoApplier c = true
      ↔ c.InspectorConnectionConfig = c.ApplierConnectionConfig := by
  simp [InspectorIsAlsoApplier, ConnectionConfig.Equals]

/-- Witness for C6 at the fresh context, whose two connection
configurations are equal. -/
theorem InspectorIsAlsoApplier_iff_witness :
    newMigrationContext.InspectorConnectionConfig
      = newMigrationContext.ApplierConnectionConfig :=
  (InspectorIsAlsoApplier_iff newMigrationContext).mp (by decide)

/-- C7: `RequiresBinlogFormatChange` is true exactly when the recorded
original binlog format differs from `"ROW"`. -/
theorem RequiresBinlogFormatChange_iff (c : MigrationContext) :
    RequiresBinlogFormatChange c = true ↔ c.OriginalBinlogFormat ≠ "ROW" := by
  simp [RequiresBinlogFormatChange]

/-- Witness for C7 at the fresh context, whose recorded binlog format
(the empty string) differs from `"ROW"`. -/
theorem RequiresBinlogFormatChange_iff_witness :
    newMigrationContext.OriginalBinlogFormat ≠ "ROW" :=
  (RequiresBinlogFormatChange_iff newMigrationContext).mp (by decide)

/-- C8: `HasMigrationRange` is false exactly when the global migration
range is absent (one of the global bounds is unset, as with an initially
empty table, where both are), and true when both global bounds are
present. -/
theorem HasMigrationRange_iff (c : MigrationContext) :
    (HasMigrationRange c = false
      ↔ (c.MigrationRangeMinValues = none ∨ c.MigrationRangeMaxValues = none))
    ∧ (HasMigrationRange c = true
      ↔ (c.MigrationRangeMinValues ≠ none ∧ c.MigrationRangeMaxValues ≠ none)) := by
  constructor
  · by_cases h1 : c.MigrationRangeMinValues = none <;>
      by_cases h2 : c.MigrationRangeMaxValues = none <;>
      simp [HasMigrationRange, h1, h2]
  · simp [HasMigrationRange]

/-- Witness for C8 at the fresh context, which has no migration range. -/
theorem HasMigrationRange_iff_witness :
    HasMigrationRange newMigrationContext = false :=
  ((HasMigrationRange_iff newMigrationContext).1).mpr (Or.inl rfl)

/-- C9: a freshly created migration context carries the documented
defaults: chunk size 1000, a non-zero replica-lag throttle threshold in
milliseconds, a non-zero swap-tables timeout in seconds, and an empty
max-load mapping. -/
theorem newMigrationContext_defaults :
    newMigrationContext.ChunkSize = 1000
    ∧ newMigrationContext.MaxLagMillisecondsThrottleThreshold = 1000
    ∧ newMigrationContext.MaxLagMillisecondsThrottleThreshold ≠ 0
    ∧ newMigrationContext.SwapTablesTimeoutSeconds = 3
    ∧ newMigrationContext.SwapTablesTimeoutSeconds ≠ 0
    ∧ newMigrationContext.MaxLoad = ([] : MaxLoadMap) :=
  ⟨rfl, rfl, by decide, rfl, by decide, rfl⟩

/-- C10: `ApplyCredentials` changes at most the inspector connection's user
and password: the whole context equals the original with only those two
fields replaced (so the applier configuration and every other field are
unchanged), and a credential whose config-file and CLI values are both
empty is also unchanged. -/
theorem ApplyCredentials_frame (c : MigrationContext) :
    (ApplyCredentials c
      = { c with InspectorConnectionConfig :=
            { c.InspectorConnectionConfig with
                User := (ApplyCredentials c).InspectorConnectionConfig.User
                Password := (ApplyCredentials c).InspectorConnectionConfig.Password } })
    ∧ (c.config.Client.User = "" → c.CliUser = "" →
        (ApplyCredentials c).InspectorConnectionConfig.User
          = c.InspectorConnectionConfig.User)
    ∧ (c.config.Client.Password = "" → c.CliPassword = "" →
        (ApplyCredentials c).InspectorConnectionConfig.Password
          = c.InspectorConnectionConfig.Password) := by
  have hins : (ApplyCredentials c).InspectorConnectionConfig = appliedInspectorConfig c := rfl
  refine ⟨?_, fun h1 h2 => ?_, fun h1 h2 => ?_⟩
  · have h : appliedInspectorConfig c
        = { c.InspectorConnectionConfig with
            User := (ApplyCredentials c).InspectorConnectionConfig.User
            Password := (ApplyCredentials c).InspectorConnectionConfig.Password } := by
      rw [hins]
      by_cases hu1 : c.config.Client.User ≠ "" <;>
        by_cases hu2 : c.CliUser ≠ "" <;>
        by_cases hp1 : c.config.Client.Password ≠ "" <;>
        by_cases hp2 : c.CliPassword ≠ "" <;>
        simp [appliedInspectorConfig, hu1, hu2, hp1, hp2]
    exact congrArg (fun icc => { c with InspectorConnectionConfig := icc }) h
  · rw [hins]
    simp [appliedInspectorConfig, apply_ite ConnectionConfig.User, h1, h2]
  · rw [hins]
    simp [appliedInspectorConfig, apply_ite ConnectionConfig.Password, h1, h2]

/-- Witness for C10 at a concrete context with no credentials set
anywhere. -/
theorem ApplyCredentials_frame_witness :
    (ApplyCredentials newMigrationContext
      = { newMigrationContext with InspectorConnectionConfig :=
            { newMigrationContext.InspectorConnectionConfig with
                User := (ApplyCredentials newMigrationContext).InspectorConnectionConfig.User
                Password :=
                  (ApplyCredentials newMigrationContext).InspectorConnectionConfig.Password } })
    ∧ ((ApplyCredentials newMigrationContext).InspectorConnectionConfig.User
      = newMigrationContext.InspectorConnectionConfig.User)
    ∧ ((ApplyCredentials newMigrationContext).InspectorConnectionConfig.Password
      = newMigrationContext.InspectorConnectionConfig.Password) :=
  ⟨(ApplyCredentials_frame newMigrationContext).1,
   (ApplyCredentials_frame newMigrationContext).2.1 rfl rfl,
   (ApplyCredentials_frame newMigrationContext).2.2 rfl rfl⟩

end GhOst
